import Mathlib

/-!
Verification of the Move VM tracing module
(`third_party/move/move-vm/runtime/src/tracing.rs`).

The module is shallowly embedded as pure functions over an explicit state:

* `Env` models the process environment read by the lazily-initialized
  statics (`MOVE_VM_TRACE`, `MOVE_VM_STEP`) together with the build flag
  `cfg(any(debug_assertions, feature = "debugging"))`.
* `VMState` models the mutable state touched by the module: the two
  thread-locals `TL_PC_CAPTURE_ENABLED` and `TL_PC_BUFFER` (as total maps
  from a thread identifier), the lazily-opened buffered file writer
  (`writerOpen`, `writerBuf`), the durable contents of the trace file
  (`fileContents`, a list of appended byte chunks, earliest first), and
  the list of events handed to the build-gated debug loop (`debugCalls`).
* `trace` is the dispatcher; `traceFallible` is the same dispatcher with
  the fallibility of the sink I/O made explicit (`none` models the
  `unwrap()` panic that aborts the process).

Program counters are `u16` in the source and are pushed as `pc as u32`;
both are modelled as `Nat`, with the `u16` range `pc < 65536` carried as a
hypothesis where a claim refers to it.  The widening `u16 -> u32` is exact,
hence the identity on the numeric value.

Threads are interleaved explicitly: a run is a list of dispatcher events,
each tagged with the identifier of the thread performing it, folded over
the state.  This is faithful for the thread-local capture state, whose
operations touch only the calling thread's slots.
-/

set_option maxHeartbeats 1000000

namespace MoveVMTracing

/-- The process environment and build configuration seen by the module:
the value of the `MOVE_VM_TRACE` environment variable (`none` when the
variable is absent), likewise for `MOVE_VM_STEP`, and whether the build
has the debugging capability compiled in. -/
structure Env where
  moveVmTrace : Option String
  moveVmStep : Option String
  debugBuild : Bool
deriving DecidableEq

/-- `FILE_PATH`:
`env::var(MOVE_VM_TRACING_ENV_VAR_NAME).unwrap_or_else(|_| "move_vm_trace.trace".to_string())`. -/
def FILE_PATH (env : Env) : String :=
  env.moveVmTrace.getD "move_vm_trace.trace"

/-- `TRACING_ENABLED`: `env::var(MOVE_VM_TRACING_ENV_VAR_NAME).is_ok()`. -/
def TRACING_ENABLED (env : Env) : Bool :=
  env.moveVmTrace.isSome

/-- `DEBUGGING_ENABLED`: `env::var(MOVE_VM_STEPPING_ENV_VAR_NAME).is_ok()`;
the static exists only in builds with the debugging capability. -/
def DEBUGGING_ENABLED (env : Env) : Bool :=
  env.moveVmStep.isSome

/-- Mutable state touched by the tracing module.  `tlEnabled` and
`tlBuffer` are the two thread-locals, indexed by a thread identifier;
`writerOpen` records whether the lazy `LOGGING_FILE_WRITER` has been
initialized; `writerBuf` holds the chunks sitting in the `BufWriter` that
have not yet been flushed; `fileContents` holds the durable bytes of the
trace file as the list of flushed chunks in append order; `debugCalls`
records the events passed to `DEBUG_CONTEXT`'s `debug_loop`. -/
@[ext]
structure VMState where
  tlEnabled : Nat → Bool
  tlBuffer : Nat → List Nat
  writerOpen : Bool
  fileContents : List String
  writerBuf : List String
  debugCalls : List (Nat × String × Nat)

/-- Process start: both thread-locals at their `thread_local!` initial
values on every thread, writer not yet opened, file empty. -/
def initVMState : VMState where
  tlEnabled := fun _ => false
  tlBuffer := fun _ => []
  writerOpen := false
  fileContents := []
  writerBuf := []
  debugCalls := []

/-- `begin_pc_capture` on thread `t`:
sets `TL_PC_CAPTURE_ENABLED` to `true` and clears `TL_PC_BUFFER`. -/
def begin_pc_capture (t : Nat) (s : VMState) : VMState :=
  { s with
    tlEnabled := Function.update s.tlEnabled t true
    tlBuffer := Function.update s.tlBuffer t [] }

/-- `end_pc_capture_take` on thread `t`: sets `TL_PC_CAPTURE_ENABLED` to
`false` and `mem::take`s `TL_PC_BUFFER`, returning the taken contents
together with the new state. -/
def end_pc_capture_take (t : Nat) (s : VMState) : List Nat × VMState :=
  (s.tlBuffer t,
   { s with
     tlEnabled := Function.update s.tlEnabled t false
     tlBuffer := Function.update s.tlBuffer t [] })

/-- First statement of `trace`: push `pc as u32` onto this thread's
`TL_PC_BUFFER` when `TL_PC_CAPTURE_ENABLED` holds for this thread. -/
def recordIfEnabled (t : Nat) (pc : Nat) (s : VMState) : VMState :=
  if s.tlEnabled t then
    { s with tlBuffer := Function.update s.tlBuffer t (s.tlBuffer t ++ [pc]) }
  else s

/-- The line written per traced instruction:
`format_args!("{},{}\n", function.name_as_pretty_string(), pc)`. -/
def formatTraceLine (fn : String) (pc : Nat) : String :=
  fn ++ "," ++ toString pc ++ "\n"

/-- The `if *TRACING_ENABLED` block of `trace`, success path: lazily open
the writer, append the formatted line to the `BufWriter`, then flush the
buffered chunks to the file. -/
def sinkWrite (fn : String) (pc : Nat) (s : VMState) : VMState :=
  let s1 : VMState := { s with writerOpen := true }
  let s2 : VMState := { s1 with writerBuf := s1.writerBuf ++ [formatTraceLine fn pc] }
  { s2 with fileContents := s2.fileContents ++ s2.writerBuf, writerBuf := [] }

/-- Second statement of `trace`: write to the sink iff `TRACING_ENABLED`. -/
def sinkStep (env : Env) (fn : String) (pc : Nat) (s : VMState) : VMState :=
  if TRACING_ENABLED env then sinkWrite fn pc s else s

/-- Third statement of `trace`: in debug builds, when `DEBUGGING_ENABLED`,
hand the event to `DEBUG_CONTEXT`'s `debug_loop`. -/
def debugStep (env : Env) (t : Nat) (fn : String) (pc : Nat) (s : VMState) : VMState :=
  if env.debugBuild && DEBUGGING_ENABLED env then
    { s with debugCalls := s.debugCalls ++ [(t, fn, pc)] }
  else s

/-- The trace dispatcher `trace(function, locals, pc, instr, ...)` invoked
on thread `t` with function label `fn` and program counter `pc`:
capture step, then sink step, then debug step, in source order. -/
def trace (env : Env) (t : Nat) (fn : String) (pc : Nat) (s : VMState) : VMState :=
  debugStep env t fn pc (sinkStep env fn pc (recordIfEnabled t pc s))

/-- A dispatcher event: calling thread, function label, program counter. -/
abbrev Event := Nat × String × Nat

/-- Run a sequence of dispatcher calls, earliest first. -/
def runTraces (env : Env) (es : List Event) (s : VMState) : VMState :=
  es.foldl (fun s e => trace env e.1 e.2.1 e.2.2 s) s

/-- Outcomes of the fallible sink I/O calls in `trace`, treated as an
oracle: whether `OpenOptions::open` would fail (consulted only on the
lazy first initialization), and whether `write_fmt` / `flush` fail. -/
structure SinkOracle where
  openFails : Bool
  writeFails : Bool
  flushFails : Bool
deriving DecidableEq

/-- The `if *TRACING_ENABLED` block with its `unwrap()`s explicit: `none`
models the panic that aborts the process when the file cannot be opened or
a write or flush fails. -/
def sinkWriteFallible (o : SinkOracle) (fn : String) (pc : Nat) (s : VMState) :
    Option VMState :=
  if !s.writerOpen && o.openFails then none
  else
    let s1 : VMState := { s with writerOpen := true }
    if o.writeFails then none
    else
      let s2 : VMState := { s1 with writerBuf := s1.writerBuf ++ [formatTraceLine fn pc] }
      if o.flushFails then none
      else some { s2 with fileContents := s2.fileContents ++ s2.writerBuf, writerBuf := [] }

/-- The dispatcher with fallible sink I/O: the capture step always runs
first; a sink failure aborts (`none`) before the debug step. -/
def traceFallible (env : Env) (o : SinkOracle) (t : Nat) (fn : String) (pc : Nat)
    (s : VMState) : Option VMState :=
  let s1 := recordIfEnabled t pc s
  if TRACING_ENABLED env then
    match sinkWriteFallible o fn pc s1 with
    | none => none
    | some s2 => some (debugStep env t fn pc s2)
  else some (debugStep env t fn pc s1)

/-- An oracle on which every I/O call succeeds. -/
def okOracle : SinkOracle := ⟨false, false, false⟩

theorem sinkWriteFallible_ok (fn : String) (pc : Nat) (s : VMState) :
    sinkWriteFallible okOracle fn pc s = some (sinkWrite fn pc s) := by
  simp [sinkWriteFallible, sinkWrite, okOracle]

theorem traceFallible_ok (env : Env) (t : Nat) (fn : String) (pc : Nat) (s : VMState) :
    traceFallible env okOracle t fn pc s = some (trace env t fn pc s) := by
  simp only [traceFallible, trace, sinkStep, sinkWriteFallible_ok]
  by_cases h : TRACING_ENABLED env <;> simp [h]

/-! ### Projection lemmas for the dispatcher steps -/

theorem recordIfEnabled_tlEnabled (t pc : Nat) (s : VMState) :
    (recordIfEnabled t pc s).tlEnabled = s.tlEnabled := by
  unfold recordIfEnabled; split <;> rfl

theorem recordIfEnabled_tlBuffer_get (t pc u : Nat) (s : VMState) :
    (recordIfEnabled t pc s).tlBuffer u =
      s.tlBuffer u ++ (if s.tlEnabled t && (t == u) then [pc] else []) := by
  unfold recordIfEnabled
  by_cases h : s.tlEnabled t
  · by_cases htu : t = u
    · subst htu; simp [h]
    · simp [h, htu, Function.update_noteq (Ne.symm htu)]
  · simp [h]

theorem recordIfEnabled_sinkFields (t pc : Nat) (s : VMState) :
    (recordIfEnabled t pc s).writerOpen = s.writerOpen ∧
    (recordIfEnabled t pc s).fileContents = s.fileContents ∧
    (recordIfEnabled t pc s).writerBuf = s.writerBuf ∧
    (recordIfEnabled t pc s).debugCalls = s.debugCalls := by
  unfold recordIfEnabled; split <;> exact ⟨rfl, rfl, rfl, rfl⟩

theorem sinkStep_tl (env : Env) (fn : String) (pc : Nat) (s : VMState) :
    (sinkStep env fn pc s).tlEnabled = s.tlEnabled ∧
    (sinkStep env fn pc s).tlBuffer = s.tlBuffer ∧
    (sinkStep env fn pc s).debugCalls = s.debugCalls := by
  unfold sinkStep sinkWrite; split <;> exact ⟨rfl, rfl, rfl⟩

theorem debugStep_tl (env : Env) (t : Nat) (fn : String) (pc : Nat) (s : VMState) :
    (debugStep env t fn pc s).tlEnabled = s.tlEnabled ∧
    (debugStep env t fn pc s).tlBuffer = s.tlBuffer ∧
    (debugStep env t fn pc s).writerOpen = s.writerOpen ∧
    (debugStep env t fn pc s).fileContents = s.fileContents ∧
    (debugStep env t fn pc s).writerBuf = s.writerBuf := by
  unfold debugStep; split <;> exact ⟨rfl, rfl, rfl, rfl, rfl⟩

theorem trace_tlEnabled (env : Env) (t : Nat) (fn : String) (pc : Nat) (s : VMState) :
    (trace env t fn pc s).tlEnabled = s.tlEnabled := by
  unfold trace
  rw [(debugStep_tl _ _ _ _ _).1, (sinkStep_tl _ _ _ _).1, recordIfEnabled_tlEnabled]

theorem trace_tlBuffer (env : Env) (t : Nat) (fn : String) (pc : Nat) (s : VMState) :
    (trace env t fn pc s).tlBuffer = (recordIfEnabled t pc s).tlBuffer := by
  unfold trace
  rw [(debugStep_tl _ _ _ _ _).2.1, (sinkStep_tl _ _ _ _).2.1]

theorem trace_tlBuffer_get (env : Env) (t : Nat) (fn : String) (pc : Nat) (s : VMState)
    (u : Nat) :
    (trace env t fn pc s).tlBuffer u =
      s.tlBuffer u ++ (if s.tlEnabled t && (t == u) then [pc] else []) := by
  rw [trace_tlBuffer, recordIfEnabled_tlBuffer_get]

/-! ### Behaviour of whole runs on the thread-local capture state -/

theorem runTraces_cons (env : Env) (e : Event) (es : List Event) (s : VMState) :
    runTraces env (e :: es) s = runTraces env es (trace env e.1 e.2.1 e.2.2 s) := rfl

theorem runTraces_tlEnabled (env : Env) (es : List Event) (s : VMState) :
    (runTraces env es s).tlEnabled = s.tlEnabled := by
  induction es generalizing s with
  | nil => rfl
  | cons e es ih => rw [runTraces_cons, ih, trace_tlEnabled]

/-- The capture buffer of thread `u` after a run: the events performed on
`u` append their pcs in order when capture is enabled on `u`, and nothing
happens otherwise (no dispatcher event toggles the enabled flag). -/
theorem runTraces_tlBuffer_get (env : Env) (es : List Event) (s : VMState) (u : Nat) :
    (runTraces env es s).tlBuffer u =
      s.tlBuffer u ++
        (if s.tlEnabled u then (es.filter (fun e => e.1 == u)).map (fun e => e.2.2)
         else []) := by
  induction es generalizing s with
  | nil => simp [runTraces]
  | cons e es ih =>
    rw [runTraces_cons, ih, trace_tlEnabled, trace_tlBuffer_get]
    by_cases hu : s.tlEnabled u
    · by_cases heu : e.1 = u
      · simp [heu, hu, List.filter_cons, List.append_assoc]
      · have : (e.1 == u) = false := beq_false_of_ne heu
        simp [hu, this, List.filter_cons]
    · by_cases heu : e.1 = u
      · subst heu; simp [hu]
      · have : (e.1 == u) = false := beq_false_of_ne heu
        simp [hu, this]

/-! ### Behaviour of the sink -/

theorem trace_sink_enabled (env : Env) (h : TRACING_ENABLED env = true)
    (t : Nat) (fn : String) (pc : Nat) (s : VMState) :
    (trace env t fn pc s).fileContents
        = s.fileContents ++ s.writerBuf ++ [formatTraceLine fn pc] ∧
    (trace env t fn pc s).writerBuf = [] ∧
    (trace env t fn pc s).writerOpen = true := by
  unfold trace
  obtain ⟨-, hfc, hwb, -⟩ := recordIfEnabled_sinkFields t pc s
  refine ⟨?_, ?_, ?_⟩
  · rw [(debugStep_tl _ _ _ _ _).2.2.2.1]
    simp [sinkStep, h, sinkWrite, hfc, hwb]
  · rw [(debugStep_tl _ _ _ _ _).2.2.2.2]
    simp [sinkStep, h, sinkWrite]
  · rw [(debugStep_tl _ _ _ _ _).2.2.1]
    simp [sinkStep, h, sinkWrite]

/-- With tracing enabled and the `BufWriter` flushed, a run appends to the
file exactly one formatted line per event, in call order, and leaves the
`BufWriter` flushed again. -/
theorem runTraces_sink_enabled (env : Env) (h : TRACING_ENABLED env = true)
    (es : List Event) (s : VMState) (hbuf : s.writerBuf = []) :
    (runTraces env es s).fileContents
        = s.fileContents ++ es.map (fun e => formatTraceLine e.2.1 e.2.2) ∧
    (runTraces env es s).writerBuf = [] := by
  induction es generalizing s with
  | nil => exact ⟨by simp [runTraces], by simp [runTraces, hbuf]⟩
  | cons e es ih =>
    rw [runTraces_cons]
    obtain ⟨hfc, hwb, -⟩ := trace_sink_enabled env h e.1 e.2.1 e.2.2 s
    obtain ⟨ihfc, ihwb⟩ := ih (trace env e.1 e.2.1 e.2.2 s) hwb
    constructor
    · rw [ihfc, hfc, hbuf]
      simp [List.append_assoc]
    · exact ihwb

/-! ### Silence when tracing and stepping are disabled -/

theorem trace_silent (env : Env) (h1 : env.moveVmTrace = none)
    (h2 : env.moveVmStep = none) (t : Nat) (fn : String) (pc : Nat) (s : VMState) :
    trace env t fn pc s = recordIfEnabled t pc s := by
  unfold trace sinkStep debugStep
  simp [TRACING_ENABLED, DEBUGGING_ENABLED, h1, h2]

theorem runTraces_silent (env : Env) (h1 : env.moveVmTrace = none)
    (h2 : env.moveVmStep = none) (es : List Event) (s : VMState) :
    (runTraces env es s).writerOpen = s.writerOpen ∧
    (runTraces env es s).fileContents = s.fileContents ∧
    (runTraces env es s).writerBuf = s.writerBuf ∧
    (runTraces env es s).debugCalls = s.debugCalls := by
  induction es generalizing s with
  | nil => exact ⟨rfl, rfl, rfl, rfl⟩
  | cons e es ih =>
    rw [runTraces_cons, trace_silent env h1 h2]
    obtain ⟨hop, hfc, hwb, hdc⟩ := ih (recordIfEnabled e.1 e.2.2 s)
    obtain ⟨rop, rfc, rwb, rdc⟩ := recordIfEnabled_sinkFields e.1 e.2.2 s
    exact ⟨hop.trans rop, hfc.trans rfc, hwb.trans rwb, hdc.trans rdc⟩

/-! ### Claim theorems -/

/-- Claim C1: on a single thread, after `begin_pc_capture` followed by N
dispatcher calls with program counters `p1..pN` on that thread,
`end_pc_capture_take` returns exactly `[p1..pN]` (each `u16` widened to
`u32`, an exact widening) in call order, and a subsequent
`end_pc_capture_take` returns the empty sequence when no further
dispatcher calls occur on that thread. -/
theorem C1_capture_roundtrip (env : Env) (t : Nat) (es : List Event) (s : VMState)
    (hth : ∀ e ∈ es, e.1 = t) (hpc : ∀ e ∈ es, e.2.2 < 65536) :
    (end_pc_capture_take t (runTraces env es (begin_pc_capture t s))).1
        = es.map (fun e => e.2.2) ∧
    (end_pc_capture_take t
        (end_pc_capture_take t (runTraces env es (begin_pc_capture t s))).2).1 = [] := by
  have hfil : es.filter (fun e => e.1 == t) = es := by
    rw [List.filter_eq_self]
    intro e hm
    exact beq_iff_eq.mpr (hth e hm)
  constructor
  · show (runTraces env es (begin_pc_capture t s)).tlBuffer t = _
    rw [runTraces_tlBuffer_get]
    simp [begin_pc_capture, hfil]
  · show (end_pc_capture_take t (runTraces env es (begin_pc_capture t s))).2.tlBuffer t = []
    simp [end_pc_capture_take]

theorem C1_capture_roundtrip_witness :
    (end_pc_capture_take 0 (runTraces ⟨none, none, false⟩
        [(0, "f", 5), (0, "g", 9)] (begin_pc_capture 0 initVMState))).1 = [5, 9] ∧
    (end_pc_capture_take 0
        (end_pc_capture_take 0 (runTraces ⟨none, none, false⟩
          [(0, "f", 5), (0, "g", 9)] (begin_pc_capture 0 initVMState))).2).1 = [] := by
  have h := C1_capture_roundtrip ⟨none, none, false⟩ 0
      [(0, "f", 5), (0, "g", 9)] initVMState
      (by intro e hm; fin_cases hm <;> rfl)
      (by intro e hm; fin_cases hm <;> decide)
  simpa using h

/-- Claim C5: the capture step of the dispatcher is unconditional: `trace`
is the capture step followed by the sink and debug steps, and for every
configuration the thread-local buffer effect is exactly the conditional
append performed by the capture step. -/
theorem C5_capture_unconditional (env : Env) (t : Nat) (fn : String) (pc : Nat)
    (s : VMState) :
    trace env t fn pc s
        = debugStep env t fn pc (sinkStep env fn pc (recordIfEnabled t pc s)) ∧
    (trace env t fn pc s).tlBuffer = (recordIfEnabled t pc s).tlBuffer ∧
    (trace env t fn pc s).tlBuffer t
        = (if s.tlEnabled t then s.tlBuffer t ++ [pc] else s.tlBuffer t) := by
  refine ⟨rfl, trace_tlBuffer env t fn pc s, ?_⟩
  rw [trace_tlBuffer_get]
  by_cases h : s.tlEnabled t <;> simp [h]

/-- Claim C6: `begin_pc_capture` is idempotent: a second call with no
intervening dispatcher calls leaves the thread's capture state identical
to a single call, with capture enabled and the buffer empty both times. -/
theorem C6_begin_idempotent (t : Nat) (s : VMState) :
    begin_pc_capture t (begin_pc_capture t s) = begin_pc_capture t s ∧
    (begin_pc_capture t s).tlEnabled t = true ∧
    (begin_pc_capture t s).tlBuffer t = [] := by
  refine ⟨?_, by simp [begin_pc_capture], by simp [begin_pc_capture]⟩
  simp [begin_pc_capture, Function.update_idem]

/-- Claim C8: capture is thread-local: after `begin_pc_capture` on thread
`t1`, dispatcher calls with pc 7 on a different thread `t2` never make 7
appear in `t1`'s `end_pc_capture_take` result. -/
theorem C8_thread_local (env : Env) (t1 t2 : Nat) (es : List Event) (s : VMState)
    (hne : t1 ≠ t2) (hth : ∀ e ∈ es, e.1 = t2) (hpc : ∀ e ∈ es, e.2.2 = 7) :
    7 ∉ (end_pc_capture_take t1 (runTraces env es (begin_pc_capture t1 s))).1 := by
  have hfil : es.filter (fun e => e.1 == t1) = [] := by
    rw [List.filter_eq_nil_iff]
    intro e hm
    simp [hth e hm, Ne.symm hne]
  show 7 ∉ (runTraces env es (begin_pc_capture t1 s)).tlBuffer t1
  rw [runTraces_tlBuffer_get]
  simp [begin_pc_capture, hfil]

theorem C8_thread_local_witness :
    7 ∉ (end_pc_capture_take 0 (runTraces ⟨none, none, false⟩
        [(1, "f", 7), (1, "g", 7)] (begin_pc_capture 0 initVMState))).1 :=
  C8_thread_local ⟨none, none, false⟩ 0 1 [(1, "f", 7), (1, "g", 7)] initVMState
    (by decide)
    (by intro e hm; fin_cases hm <;> rfl)
    (by intro e hm; fin_cases hm <;> rfl)

/-- Claim C9: `end_pc_capture_take` on a thread whose capture state is
still in its default state (capture never begun) returns the empty
sequence and leaves that thread disabled with an empty buffer. -/
theorem C9_take_default (t : Nat) (s : VMState)
    (h1 : s.tlEnabled t = false) (h2 : s.tlBuffer t = []) :
    (end_pc_capture_take t s).1 = [] ∧
    (end_pc_capture_take t s).2.tlEnabled t = false ∧
    (end_pc_capture_take t s).2.tlBuffer t = [] := by
  refine ⟨h2, ?_, ?_⟩ <;> simp [end_pc_capture_take]

theorem C9_take_default_witness :
    (end_pc_capture_take 3 initVMState).1 = [] ∧
    (end_pc_capture_take 3 initVMState).2.tlEnabled 3 = false ∧
    (end_pc_capture_take 3 initVMState).2.tlBuffer 3 = [] :=
  C9_take_default 3 initVMState rfl rfl

/-- Claim C3: with tracing enabled and the writer flushed, the first `n`
of a sequence of dispatcher calls on one thread with labels/pcs
`(f1,p1)..(fN,pN)` have appended to the file exactly the lines
`"fi,pi\n"` for the calls performed so far, in call order, and the
`BufWriter` is flushed again — so each line is durable immediately after
the corresponding call returns.  (The sink lock serializing writers is
not modelled; runs are explicit sequential interleavings.) -/
theorem C3_sink_lines (env : Env) (t : Nat) (calls : List (String × Nat)) (n : Nat)
    (s : VMState) (h : TRACING_ENABLED env = true) (hbuf : s.writerBuf = []) :
    (runTraces env ((calls.take n).map fun c => (t, c.1, c.2)) s).fileContents
        = s.fileContents ++ (calls.take n).map (fun c => formatTraceLine c.1 c.2) ∧
    (runTraces env ((calls.take n).map fun c => (t, c.1, c.2)) s).writerBuf = [] := by
  obtain ⟨hfc, hwb⟩ :=
    runTraces_sink_enabled env h ((calls.take n).map fun c => (t, c.1, c.2)) s hbuf
  refine ⟨?_, hwb⟩
  rw [hfc]
  congr 1
  rw [List.map_map]
  rfl

theorem C3_sink_lines_witness :
    (runTraces ⟨some "p", none, false⟩
        (([("f1", 5), ("f2", 9)].take 2).map fun c => (0, c.1, c.2))
        initVMState).fileContents
      = ([("f1", 5), ("f2", 9)].take 2).map (fun c => formatTraceLine c.1 c.2) ∧
    (runTraces ⟨some "p", none, false⟩
        (([("f1", 5), ("f2", 9)].take 2).map fun c => (0, c.1, c.2))
        initVMState).writerBuf = [] := by
  have h := C3_sink_lines ⟨some "p", none, false⟩ 0 [("f1", 5), ("f2", 9)] 2
      initVMState rfl rfl
  simpa using h

/-- Claim C4: with `MOVE_VM_TRACE` and `MOVE_VM_STEP` both absent, any
number of dispatcher calls append zero bytes to the trace file, never
open the writer, never invoke the debug loop, and have no effect beyond
the capture-buffer update of the calling threads. -/
theorem C4_silent (env : Env) (es : List Event) (s : VMState)
    (h1 : env.moveVmTrace = none) (h2 : env.moveVmStep = none) :
    (runTraces env es s).fileContents = s.fileContents ∧
    (runTraces env es s).writerBuf = s.writerBuf ∧
    (runTraces env es s).writerOpen = s.writerOpen ∧
    (runTraces env es s).debugCalls = s.debugCalls ∧
    (runTraces env es s).tlEnabled = s.tlEnabled ∧
    ∀ u, (∀ e ∈ es, e.1 ≠ u) → (runTraces env es s).tlBuffer u = s.tlBuffer u := by
  obtain ⟨hop, hfc, hwb, hdc⟩ := runTraces_silent env h1 h2 es s
  refine ⟨hfc, hwb, hop, hdc, runTraces_tlEnabled env es s, ?_⟩
  intro u hu
  have hfil : es.filter (fun e => e.1 == u) = [] := by
    rw [List.filter_eq_nil_iff]
    intro e hm
    simpa using hu e hm
  rw [runTraces_tlBuffer_get, hfil]
  by_cases henu : s.tlEnabled u <;> simp [henu]

theorem C4_silent_witness :
    (runTraces ⟨none, none, true⟩ [(0, "f", 3), (1, "g", 4)] initVMState).fileContents
        = initVMState.fileContents ∧
    (runTraces ⟨none, none, true⟩ [(0, "f", 3), (1, "g", 4)] initVMState).writerBuf
        = initVMState.writerBuf ∧
    (runTraces ⟨none, none, true⟩ [(0, "f", 3), (1, "g", 4)] initVMState).writerOpen
        = initVMState.writerOpen ∧
    (runTraces ⟨none, none, true⟩ [(0, "f", 3), (1, "g", 4)] initVMState).debugCalls
        = initVMState.debugCalls ∧
    (runTraces ⟨none, none, true⟩ [(0, "f", 3), (1, "g", 4)] initVMState).tlEnabled
        = initVMState.tlEnabled ∧
    ∀ u, (∀ e ∈ [(0, "f", 3), (1, "g", 4)], Prod.fst e ≠ u) →
      (runTraces ⟨none, none, true⟩ [(0, "f", 3), (1, "g", 4)] initVMState).tlBuffer u
        = initVMState.tlBuffer u :=
  C4_silent ⟨none, none, true⟩ [(0, "f", 3), (1, "g", 4)] initVMState rfl rfl

/-- Claim C7: with tracing enabled, a failure of the lazy file open, of
the write, or of the flush makes the dispatcher abort the process (an
`unwrap` panic, modelled as `none`) rather than return a state or report
a recoverable error to the interpreter. -/
theorem C7_io_failure (env : Env) (o : SinkOracle) (t : Nat) (fn : String) (pc : Nat)
    (s : VMState) (h : TRACING_ENABLED env = true)
    (hfail : (s.writerOpen = false ∧ o.openFails = true) ∨
      o.writeFails = true ∨ o.flushFails = true) :
    traceFallible env o t fn pc s = none := by
  have rop : (recordIfEnabled t pc s).writerOpen = s.writerOpen :=
    (recordIfEnabled_sinkFields t pc s).1
  have hs : sinkWriteFallible o fn pc (recordIfEnabled t pc s) = none := by
    unfold sinkWriteFallible
    rcases hfail with ⟨ho, hof⟩ | hw | hf
    · simp [rop, ho, hof]
    · by_cases hfirst : !(recordIfEnabled t pc s).writerOpen && o.openFails <;>
        simp [hfirst, hw]
    · by_cases hfirst : !(recordIfEnabled t pc s).writerOpen && o.openFails <;>
        by_cases hw : o.writeFails <;> simp [hfirst, hw, hf]
  simp [traceFallible, h, hs]

theorem C7_io_failure_witness :
    traceFallible ⟨some "p", none, false⟩ ⟨false, true, false⟩ 0 "f" 3 initVMState
      = none :=
  C7_io_failure ⟨some "p", none, false⟩ ⟨false, true, false⟩ 0 "f" 3 initVMState
    rfl (Or.inr (Or.inl rfl))

/-- Claim C10: every program counter returned by `end_pc_capture_take`
after a run of dispatcher calls whose pcs are `u16` values is itself
below `2^16` and equals the pc of one of those calls (the widening to
`u32` loses nothing), and the bound holds of every thread's buffer after
the run whenever it held before. -/
theorem mem_append_ite {x : Nat} {b l : List Nat} {c : Prop} [Decidable c]
    (h : x ∈ b ++ (if c then l else [])) : x ∈ b ∨ x ∈ l := by
  by_cases hc : c
  · rw [if_pos hc] at h
    exact List.mem_append.mp h
  · rw [if_neg hc, List.append_nil] at h
    exact Or.inl h

theorem C10_u16_bound (env : Env) (t : Nat) (es : List Event) (s : VMState)
    (hpc : ∀ e ∈ es, e.2.2 < 65536) :
    (∀ x ∈ (end_pc_capture_take t (runTraces env es (begin_pc_capture t s))).1,
        x < 65536 ∧ ∃ e ∈ es, e.2.2 = x) ∧
    (∀ u, (∀ x ∈ s.tlBuffer u, x < 65536) →
        ∀ x ∈ (runTraces env es (begin_pc_capture t s)).tlBuffer u, x < 65536) := by
  constructor
  · intro x hx
    replace hx : x ∈ (runTraces env es (begin_pc_capture t s)).tlBuffer t := hx
    rw [runTraces_tlBuffer_get] at hx
    rcases mem_append_ite hx with hbase | hnew
    · rw [show (begin_pc_capture t s).tlBuffer t = [] from by simp [begin_pc_capture]]
        at hbase
      exact absurd hbase (List.not_mem_nil x)
    · obtain ⟨e, hef, hex⟩ := List.mem_map.mp hnew
      have hm : e ∈ es := List.mem_of_mem_filter hef
      exact ⟨hex ▸ hpc e hm, e, hm, hex⟩
  · intro u hu x hx
    rw [runTraces_tlBuffer_get] at hx
    rcases mem_append_ite hx with hbase | hnew
    · by_cases hut : u = t
      · subst hut
        rw [show (begin_pc_capture u s).tlBuffer u = [] from by simp [begin_pc_capture]]
          at hbase
        exact absurd hbase (List.not_mem_nil x)
      · rw [show (begin_pc_capture t s).tlBuffer u = s.tlBuffer u from by
            simp [begin_pc_capture, Function.update_noteq hut]] at hbase
        exact hu x hbase
    · obtain ⟨e, hef, hex⟩ := List.mem_map.mp hnew
      exact hex ▸ hpc e (List.mem_of_mem_filter hef)

theorem C10_u16_bound_witness :
    (∀ x ∈ (end_pc_capture_take 0 (runTraces ⟨none, none, false⟩
        [(0, "f", 5)] (begin_pc_capture 0 initVMState))).1,
        x < 65536 ∧ ∃ e ∈ [((0 : Nat), "f", (5 : Nat))], e.2.2 = x) ∧
    (∀ u, (∀ x ∈ initVMState.tlBuffer u, x < 65536) →
        ∀ x ∈ (runTraces ⟨none, none, false⟩ [(0, "f", 5)]
          (begin_pc_capture 0 initVMState)).tlBuffer u, x < 65536) :=
  C10_u16_bound ⟨none, none, false⟩ 0 [(0, "f", 5)] initVMState
    (by intro e hm; fin_cases hm <;> decide)

/-- Claim C2, counterexample: when `MOVE_VM_TRACE` is present with an
empty value (the only way a set environment variable carries no value),
`env::var` returns `Ok("")`, so `FILE_PATH` is the empty string, not the
default `move_vm_trace.trace` the claim asserts. -/
theorem C2_config_counterexample :
    ¬ (FILE_PATH ⟨some "", none, false⟩ = "move_vm_trace.trace") := by
  simp [FILE_PATH]

/-- Claim C2 (amended): `TRACING_ENABLED` is true iff `MOVE_VM_TRACE` is
present; whenever the variable is present its value — including the empty
value — becomes the trace-file path; when it is absent the default path
`move_vm_trace.trace` is used and tracing is disabled.  Resolution is
total: absent variables produce defaults, never errors. -/
theorem C2_config_resolution (env : Env) :
    (TRACING_ENABLED env = true ↔ env.moveVmTrace.isSome = true) ∧
    (∀ v, env.moveVmTrace = some v → FILE_PATH env = v) ∧
    (env.moveVmTrace = none →
      FILE_PATH env = "move_vm_trace.trace" ∧ TRACING_ENABLED env = false) := by
  refine ⟨Iff.rfl, ?_, ?_⟩
  · intro v hv
    simp [FILE_PATH, hv]
  · intro hn
    simp [FILE_PATH, TRACING_ENABLED, hn]

theorem C2_config_resolution_witness :
    FILE_PATH ⟨some "trace.out", none, false⟩ = "trace.out" ∧
    TRACING_ENABLED ⟨some "trace.out", none, false⟩ = true ∧
    FILE_PATH ⟨none, none, false⟩ = "move_vm_trace.trace" ∧
    TRACING_ENABLED ⟨none, none, false⟩ = false :=
  ⟨(C2_config_resolution ⟨some "trace.out", none, false⟩).2.1 "trace.out" rfl,
   (C2_config_resolution ⟨some "trace.out", none, false⟩).1.mpr rfl,
   ((C2_config_resolution ⟨none, none, false⟩).2.2 rfl).1,
   ((C2_config_resolution ⟨none, none, false⟩).2.2 rfl).2⟩

end MoveVMTracing
